import Mathlib

/- Verification development for the realtime voice session engine of the
   recipe-maker-bot repository: the streaming function-call reassembler
   (js/app.js), the audio-capture silence gate, the connection retry machinery
   and control-channel send behavior (js/core/FunctionRouter.js, class
   VoiceManager), and the HTTP retry backoff (js/core/APIClient.js).

   JavaScript is embedded shallowly: numbers are exact rationals, JS objects
   become structures with Option fields for possibly-absent members, the
   console log stream and the outbound wire traffic are explicit outputs, and
   thrown-and-caught exceptions are modelled by the branch the catch handler
   takes. -/

/-- JSON values, the data model of the wire messages.  Numbers are modelled as
exact rationals. -/
inductive Json where
  | null : Json
  | bool (b : Bool) : Json
  | num (q : ℚ) : Json
  | str (s : String) : Json
  | arr (elems : List Json) : Json
  | obj (fields : List (String × Json)) : Json

/-- Whitespace accepted between JSON tokens. -/
def jsonWs (c : Char) : Bool :=
  c = ' ' || c = '\t' || c = '\n' || c = '\r'

/-- Drop leading JSON whitespace. -/
def skipWs : List Char → List Char
  | [] => []
  | c :: cs => if jsonWs c then skipWs cs else c :: cs

def digitVal (c : Char) : ℕ := c.toNat - '0'.toNat

/-- Split a longest leading run of decimal digits from the input. -/
def takeDigits : List Char → List Char × List Char
  | [] => ([], [])
  | c :: cs =>
    if c.isDigit then
      let r := takeDigits cs
      (c :: r.1, r.2)
    else ([], c :: cs)

def digitsToNat (ds : List Char) : ℕ :=
  ds.foldl (fun acc c => 10 * acc + digitVal c) 0

/-- Value of a hexadecimal digit, for \u escapes. -/
def hexVal (c : Char) : Option ℕ :=
  if c.isDigit then some (c.toNat - '0'.toNat)
  else if 'a' ≤ c ∧ c ≤ 'f' then some (c.toNat - 'a'.toNat + 10)
  else if 'A' ≤ c ∧ c ≤ 'F' then some (c.toNat - 'A'.toNat + 10)
  else none

/-- Single-character JSON string escapes. -/
def escChar (c : Char) : Option Char :=
  if c = '"' then some '"'
  else if c = '\\' then some '\\'
  else if c = '/' then some '/'
  else if c = 'b' then some (Char.ofNat 8)
  else if c = 'f' then some (Char.ofNat 12)
  else if c = 'n' then some '\n'
  else if c = 'r' then some '\r'
  else if c = 't' then some '\t'
  else none

/-- Parse the body of a JSON string after the opening quote; returns the
decoded characters and the input remaining after the closing quote. -/
def parseStrChars : List Char → Option (List Char × List Char)
  | [] => none
  | c :: cs =>
    if c = '"' then some ([], cs)
    else if c = '\\' then
      match cs with
      | [] => none
      | e :: cs2 =>
        if e = 'u' then
          match cs2 with
          | h1 :: h2 :: h3 :: h4 :: cs3 =>
            match hexVal h1, hexVal h2, hexVal h3, hexVal h4 with
            | some a, some b, some c2, some d =>
              match parseStrChars cs3 with
              | some (out, rest) =>
                some (Char.ofNat (((a * 16 + b) * 16 + c2) * 16 + d) :: out, rest)
              | none => none
            | _, _, _, _ => none
          | _ => none
        else
          match escChar e with
          | some ec =>
            match parseStrChars cs2 with
            | some (out, rest) => some (ec :: out, rest)
            | none => none
          | none => none
    else
      match parseStrChars cs with
      | some (out, rest) => some (c :: out, rest)
      | none => none

/-- Fractional part of a JSON number; the first component is none when no dot
follows (so that plain integer literals take the cast-only path below). -/
def parseFracPart : List Char → Option (Option ℚ × List Char)
  | '.' :: cs =>
    (match takeDigits cs with
     | ([], _) => none
     | (ds, rest) => some (some ((digitsToNat ds : ℚ) / (10 : ℚ) ^ ds.length), rest))
  | cs => some (none, cs)

/-- Exponent part of a JSON number; the first component is none when no e/E
follows. -/
def parseExpPart : List Char → Option (Option ℤ × List Char)
  | [] => some (none, [])
  | c :: cs =>
    if c = 'e' ∨ c = 'E' then
      let p : ℤ × List Char :=
        match cs with
        | '+' :: r => (1, r)
        | '-' :: r => (-1, r)
        | r => (1, r)
      match takeDigits p.2 with
      | ([], _) => none
      | (ds, rest) => some (some (p.1 * (digitsToNat ds : ℤ)), rest)
    else some (none, c :: cs)

/-- Parse a JSON number (sign, integer part without leading zeros, optional
fraction, optional exponent) into an exact rational.  A number with neither
fraction nor exponent is the cast of its digits (the general formula
(int + frac) * 10 ^ exp reduces to exactly that in this case). -/
def parseNumber (cs : List Char) : Option (ℚ × List Char) :=
  let p : Bool × List Char :=
    match cs with
    | '-' :: rest => (true, rest)
    | _ => (false, cs)
  match takeDigits p.2 with
  | ([], _) => none
  | (ds, cs2) =>
    if ds.length > 1 ∧ ds.headD '0' = '0' then none
    else
      match parseFracPart cs2 with
      | none => none
      | some (frOpt, cs3) =>
        match parseExpPart cs3 with
        | none => none
        | some (exOpt, cs4) =>
          let mag : ℚ :=
            match frOpt, exOpt with
            | none, none => (digitsToNat ds : ℚ)
            | _, _ => ((digitsToNat ds : ℚ) + frOpt.getD 0) * (10 : ℚ) ^ exOpt.getD 0
          some (if p.1 then -mag else mag, cs4)

mutual

/-- Recursive-descent JSON value grammar; the fuel bounds recursion depth and
is chosen larger than the input length, so it never runs out before the input
does (every recursive call first consumes at least one character). -/
def parseVal : ℕ → List Char → Option (Json × List Char)
  | 0, _ => none
  | fuel + 1, cs =>
    match skipWs cs with
    | [] => none
    | c :: rest =>
      if c = '\x7b' then
        match skipWs rest with
        | '\x7d' :: rest2 => some (Json.obj [], rest2)
        | rest2 =>
          match parseMembers fuel rest2 with
          | some (fs, rest3) => some (Json.obj fs, rest3)
          | none => none
      else if c = '[' then
        match skipWs rest with
        | ']' :: rest2 => some (Json.arr [], rest2)
        | rest2 =>
          match parseElems fuel rest2 with
          | some (es, rest3) => some (Json.arr es, rest3)
          | none => none
      else if c = '"' then
        match parseStrChars rest with
        | some (out, rest2) => some (Json.str (String.mk out), rest2)
        | none => none
      else if c = 't' then
        match rest with
        | 'r' :: 'u' :: 'e' :: rest2 => some (Json.bool true, rest2)
        | _ => none
      else if c = 'f' then
        match rest with
        | 'a' :: 'l' :: 's' :: 'e' :: rest2 => some (Json.bool false, rest2)
        | _ => none
      else if c = 'n' then
        match rest with
        | 'u' :: 'l' :: 'l' :: rest2 => some (Json.null, rest2)
        | _ => none
      else if c = '-' ∨ c.isDigit then
        match parseNumber (c :: rest) with
        | some (q, rest2) => some (Json.num q, rest2)
        | none => none
      else none

/-- Members of a JSON object after the opening brace (nonempty case). -/
def parseMembers : ℕ → List Char → Option (List (String × Json) × List Char)
  | 0, _ => none
  | fuel + 1, cs =>
    match skipWs cs with
    | '"' :: rest =>
      (match parseStrChars rest with
       | some (key, rest2) =>
         (match skipWs rest2 with
          | ':' :: rest3 =>
            (match parseVal fuel rest3 with
             | some (v, rest4) =>
               (match skipWs rest4 with
                | ',' :: rest5 =>
                  (match parseMembers fuel rest5 with
                   | some (fs, rest6) => some ((String.mk key, v) :: fs, rest6)
                   | none => none)
                | '\x7d' :: rest5 => some ([(String.mk key, v)], rest5)
                | _ => none)
             | none => none)
          | _ => none)
       | none => none)
    | _ => none

/-- Elements of a JSON array after the opening bracket (nonempty case). -/
def parseElems : ℕ → List Char → Option (List Json × List Char)
  | 0, _ => none
  | fuel + 1, cs =>
    match parseVal fuel cs with
    | some (v, rest) =>
      (match skipWs rest with
       | ',' :: rest2 =>
         (match parseElems fuel rest2 with
          | some (es, rest3) => some (v :: es, rest3)
          | none => none)
       | ']' :: rest2 => some ([v], rest2)
       | _ => none)
    | none => none

end

/-- The embedding of the JavaScript JSON.parse builtin: parse one value and
require only whitespace to remain.  A parse failure is where JSON.parse throws
a SyntaxError; callers in this repository always wrap it in try/catch, so the
failure is modelled as the Option none. -/
def jsonParse (s : String) : Option Json :=
  match parseVal (s.length + 1) s.toList with
  | some (v, rest) => if skipWs rest = [] then some v else none
  | none => none

example : jsonParse "\x7b\"name\":\"eggs\",\"amount\":3\x7d" =
    some (Json.obj [("name", Json.str "eggs"), ("amount", Json.num 3)]) := rfl

example : jsonParse "\x7b\"name\":\"eg" = none := rfl

example : jsonParse "[1, true, null, \"a\\nb\", -7]" =
    some (Json.arr [Json.num 1, Json.bool true, Json.null,
      Json.str "a\nb", Json.num (-7)]) := rfl

/- ===================================================================
   JS object helpers: field lookup and truthiness.
   =================================================================== -/

/-- Look up a field of a JSON object (later duplicate keys win, as in JS
objects built by JSON.parse); none for absent fields and non-objects,
modelling an undefined JS property. -/
def lookupJson (j : Json) (k : String) : Option Json :=
  match j with
  | Json.obj fs => fs.foldl (fun acc kv => if kv.1 = k then some kv.2 else acc) none
  | _ => none

/-- Field access composed with a string check: some s only when the field is
present and holds the JS string s. -/
def getStrField (j : Json) (k : String) : Option String :=
  match lookupJson j k with
  | some (Json.str s) => some s
  | _ => none

/-- JS truthiness of a possibly-absent JSON value (undefined, null, false, 0
and the empty string are falsy). -/
def jsTruthy : Option Json → Bool
  | none => false
  | some Json.null => false
  | some (Json.bool b) => b
  | some (Json.num q) => decide (q ≠ 0)
  | some (Json.str s) => !s.isEmpty
  | some (Json.arr _) => true
  | some (Json.obj _) => true

/-- JS truthiness filter on an optional string: the JS expression (a || b)
on string-or-undefined values keeps a only when it is present and nonempty. -/
def jsTruthyStr : Option String → Option String
  | some s => if s.isEmpty then none else some s
  | none => none

/- ===================================================================
   Streaming Command Reassembler (js/app.js,
   RecipeVoiceApp.accumulateFunctionCallArgs / handleStreamingFunctionCall /
   handleFunctionCall).
   =================================================================== -/

/-- The accumulator for an in-flight streaming function call.  The source
initializes it as \x7b name: null, arguments: '' \x7d; there is one such field
(this.streamingFunctionCall) on the app object, nullable. -/
structure PendingFunctionCall where
  name : Option String
  arguments : String
deriving DecidableEq

/-- A response.function_call_arguments.delta wire message: the call id it
carries and its fragment (absent or empty fragments are falsy in JS). -/
structure DeltaMsg where
  call_id : String
  delta : Option String
deriving DecidableEq

/-- A response.function_call_arguments.done wire message. -/
structure DoneMsg where
  call_id : String
  name : Option String
deriving DecidableEq

/-- A command handed to the external Command Dispatcher
(this.recipeManager.handleFunctionCall): function name plus arguments. -/
structure Command where
  name : String
  arguments : Json

/-- RecipeVoiceApp.accumulateFunctionCallArgs (app.js lines 756-771): create
the accumulator if absent (regardless of the delta message's payload), then
append the fragment when message.delta is truthy.  The call id carried by the
message is not read by the source. -/
def accumulateFunctionCallArgs (st : Option PendingFunctionCall) (m : DeltaMsg) :
    Option PendingFunctionCall :=
  let p := st.getD { name := none, arguments := "" }
  match m.delta with
  | some d => if d.isEmpty then some p else some { p with arguments := p.arguments ++ d }
  | none => some p

/-- RecipeVoiceApp.handleFunctionCall (app.js lines 900-941), restricted to
its command-extraction and dispatch logic: probe the message shapes in order
(item.type === 'function_call', message.call, message.type === 'function_call',
item.function_call); a message with no extractable call or a falsy name is
dropped with a log; otherwise the call is handed to the dispatcher once.
Result: dispatched commands plus console log tags. -/
def handleFunctionCallJson (j : Json) : List Command × List String :=
  let item := lookupJson j "item"
  let condItemFC : Bool :=
    match item with
    | some it => decide (getStrField it "type" = some "function_call")
    | none => false
  let condItemNested : Bool :=
    match item with
    | some it => jsTruthy (lookupJson it "function_call")
    | none => false
  let fc : Option Json :=
    if condItemFC then
      match item with
      | some it => some (Json.obj [("name", (lookupJson it "name").getD Json.null),
                                   ("arguments", (lookupJson it "arguments").getD Json.null)])
      | none => none
    else if jsTruthy (lookupJson j "call") then lookupJson j "call"
    else if getStrField j "type" = some "function_call" then some j
    else if condItemNested then
      match item with
      | some it => lookupJson it "function_call"
      | none => none
    else none
  match fc with
  | none => ([], ["no_function_call_data"])
  | some f =>
    if jsTruthy (lookupJson f "name") then
      ([{ name := (getStrField f "name").getD "",
          arguments := (lookupJson f "arguments").getD Json.null }], [])
    else ([], ["function_call_missing_name"])

/-- Result of one reassembler step: the new accumulator state, the commands
dispatched during the step, and the console log tags emitted. -/
structure ReassemblyStep where
  state : Option PendingFunctionCall
  dispatched : List Command
  logs : List String

/-- RecipeVoiceApp.handleStreamingFunctionCall (app.js lines 773-804): a done
message with no pending accumulator is logged and ignored; otherwise the
function name is message.name || pending.name || 'addIngredient' (JS falsy
fallback), the buffered fragments are parsed as JSON, a parse failure is
logged and discards the call, a parse success builds the
\x7b type: 'function_call', name, arguments \x7d event and routes it through
handleFunctionCall; the accumulator is cleared in every path that reaches the
end of the function. -/
def handleStreamingFunctionCall (st : Option PendingFunctionCall) (m : DoneMsg) :
    ReassemblyStep :=
  match st with
  | none => { state := none, dispatched := [], logs := ["no_streaming_call_to_complete"] }
  | some p =>
    let functionName := ((jsTruthyStr m.name).orElse (fun _ => jsTruthyStr p.name)).getD
      "addIngredient"
    match jsonParse p.arguments with
    | some args =>
      let ev := Json.obj [("type", Json.str "function_call"),
                          ("name", Json.str functionName),
                          ("arguments", args)]
      let r := handleFunctionCallJson ev
      { state := none, dispatched := r.1, logs := ["completing_streaming_function_call"] ++ r.2 }
    | none =>
      { state := none, dispatched := [], logs := ["failed_to_parse_streaming_function_arguments"] }

/-- An inbound function-call event for the reassembler, as routed by
RecipeVoiceApp.handleRealtimeMessage. -/
inductive FCEvent where
  | delta (m : DeltaMsg) : FCEvent
  | done (m : DoneMsg) : FCEvent

/-- One handleRealtimeMessage step restricted to the function-call cases:
deltas accumulate, done completes and possibly dispatches. -/
def stepFCEvent (r : ReassemblyStep) (e : FCEvent) : ReassemblyStep :=
  match e with
  | FCEvent.delta m => { r with state := accumulateFunctionCallArgs r.state m }
  | FCEvent.done m =>
    let s := handleStreamingFunctionCall r.state m
    { state := s.state, dispatched := r.dispatched ++ s.dispatched, logs := r.logs ++ s.logs }

/-- Run the reassembler, starting from no pending call, over a sequence of
events in arrival order. -/
def processFCEvents (evs : List FCEvent) : ReassemblyStep :=
  evs.foldl stepFCEvent { state := none, dispatched := [], logs := [] }

/-- Concatenation of the fragments of a delta sequence in arrival order
(absent fragments contribute nothing, exactly as the truthiness guard in
accumulateFunctionCallArgs makes them). -/
def concatDeltas : List DeltaMsg → String
  | [] => ""
  | m :: ms => (m.delta.getD "") ++ concatDeltas ms

/-- The functionName expression of handleStreamingFunctionCall:
message.name || pending.name || 'addIngredient'. -/
def functionNameOf (m : DoneMsg) (p : PendingFunctionCall) : String :=
  ((jsTruthyStr m.name).orElse (fun _ => jsTruthyStr p.name)).getD "addIngredient"

example :
    (processFCEvents [FCEvent.delta { call_id := "c1", delta := some "\x7b\"a\":" },
      FCEvent.delta { call_id := "c1", delta := some "1\x7d" },
      FCEvent.done { call_id := "c1", name := some "addIngredient" }]).dispatched.map
      Command.name = ["addIngredient"] := rfl

/- ===================================================================
   Audio Capture silence gate (js/core/FunctionRouter.js,
   VoiceManager.startAudioStreaming, the onaudioprocess callback).
   =================================================================== -/

/-- Sum of squared amplitudes of a frame: the loop
audioEnergy += amplitude * amplitude with amplitude = Math.abs(sample). -/
def audioEnergy (frame : List ℚ) : ℚ :=
  frame.foldl (fun acc x => acc + |x| * |x|) 0

/-- Peak absolute amplitude of a frame:
maxAmplitude = Math.max(maxAmplitude, amplitude), starting from 0. -/
def maxAmplitude (frame : List ℚ) : ℚ :=
  frame.foldl (fun acc x => max acc |x|) 0

/-- The source computes rms = Math.sqrt(audioEnergy / inputData.length) and
tests rms > 0.015 && maxAmplitude > 0.008.  Square roots are not computable on
ℚ, so the rms test is embedded as the equivalent squared comparison
audioEnergy / length > 0.015 ^ 2 (both sides are nonnegative); the theorem for
claim C2 proves this equivalent to the source's square-root formulation over
the reals. -/
def hasSignificantAudioFrame (frame : List ℚ) : Bool :=
  decide (audioEnergy frame / (frame.length : ℚ) > (15 / 1000 : ℚ) ^ 2) &&
  decide (maxAmplitude frame > 8 / 1000)

/-- PCM16 quantization: clamp each sample to [-1, 1] and Math.round(s * 32767)
(Math.round rounds half toward +infinity, as does Mathlib's round). -/
def pcmEncode (frame : List ℚ) : List ℤ :=
  frame.map (fun s => round (max (-1 : ℚ) (min 1 s) * 32767))

/-- const maxSilentFrames = 10. -/
def maxSilentFrames : ℕ := 10

/-- One onaudioprocess tick: the guard returns early (no send, counter kept)
unless connected, unmuted and the data channel open; a non-significant frame
increments the consecutive-silence counter and is suppressed once the counter
exceeds maxSilentFrames; a significant frame resets the counter; every
non-suppressed frame is quantized and sent. -/
def onAudioProcess (isConnected isMuted channelOpen : Bool) (csf : ℕ)
    (frame : List ℚ) : ℕ × Option (List ℤ) :=
  if !isConnected || isMuted || !channelOpen then (csf, none)
  else if !(hasSignificantAudioFrame frame) then
    let c := csf + 1
    if c > maxSilentFrames then (c, none)
    else (c, some (pcmEncode frame))
  else (0, some (pcmEncode frame))

/-- The per-frame outputs of a run of the capture callback over a frame
sequence (connected, unmuted, channel open), from counter c. -/
def audioOutputs (c : ℕ) : List (List ℚ) → List (Option (List ℤ))
  | [] => []
  | f :: fs =>
    let r := onAudioProcess true false true c f
    r.2 :: audioOutputs r.1 fs

/- ===================================================================
   Connection retry machinery (js/core/FunctionRouter.js,
   VoiceManager.connect / disconnect / reconnect / handleConnectionError).
   =================================================================== -/

/-- this.maxConnectionAttempts = 3. -/
def maxConnectionAttempts : ℕ := 3

/-- The retry-relevant VoiceManager state: the attempt counter, whether a
reconnection timeout is pending, and how many times the give-up error has
been surfaced through this.onError. -/
structure VMConn where
  connectionAttempts : ℕ
  reconnectScheduled : Bool
  fatalErrors : ℕ
deriving DecidableEq

/-- VoiceManager.handleConnectionError (lines 834-853): below the bound it
schedules a reconnect after the backoff delay; at or above the bound it
surfaces the give-up error once via this.onError. -/
def handleConnectionError (s : VMConn) : VMConn :=
  if s.connectionAttempts < maxConnectionAttempts then
    { s with reconnectScheduled := true }
  else
    { s with fatalErrors := s.fatalErrors + 1 }

/-- A failing connect(): this.connectionAttempts++ at entry, then the catch
block runs handleConnectionError. -/
def failedConnect (s : VMConn) : VMConn :=
  handleConnectionError { s with connectionAttempts := s.connectionAttempts + 1 }

/-- VoiceManager.disconnect() resets this.connectionAttempts = 0 (it does not
cancel this.reconnectionTimeout; only cleanup() does). -/
def vmDisconnect (s : VMConn) : VMConn :=
  { s with connectionAttempts := 0 }

/-- The pending reconnection timeout fires and reconnect() runs with its
connect() failing: the guard surfaces the give-up error when the counter is
already at the bound; otherwise reconnect() awaits disconnect() - which
resets the counter - and then the failing connect(). -/
def failedReconnect (s : VMConn) : VMConn :=
  let s1 := { s with reconnectScheduled := false }
  if s1.connectionAttempts ≥ maxConnectionAttempts then
    { s1 with fatalErrors := s1.fatalErrors + 1 }
  else failedConnect (vmDisconnect s1)

/-- Fresh VoiceManager state (constructor). -/
def initialVM : VMConn :=
  { connectionAttempts := 0, reconnectScheduled := false, fatalErrors := 0 }

/- ===================================================================
   Backoff delays (js/core/APIClient.js calculateRetryDelay and the
   VoiceManager.handleConnectionError backoff expression).
   =================================================================== -/

/-- this.maxRetries = 3 in the APIClient constructor. -/
def maxRetries : ℕ := 3

/-- APIClient.calculateRetryDelay (lines 467-472):
min(1000 * 2 ^ attempt + jitter, 10000) where jitter = Math.random() * 1000,
passed here as an explicit parameter in [0, 1000). -/
def calculateRetryDelay (attempt : ℕ) (jitter : ℚ) : ℚ :=
  min (1000 * 2 ^ attempt + jitter) 10000

/-- The backoff expression of VoiceManager.handleConnectionError (line 841):
Math.min(2000 * Math.pow(2, this.connectionAttempts), 30000); it adds no
jitter. -/
def reconnectBackoffDelay (attempt : ℕ) : ℚ :=
  min (2000 * 2 ^ attempt) 30000

/- ===================================================================
   Control-channel send (js/core/FunctionRouter.js,
   VoiceManager.sendMessage).
   =================================================================== -/

/-- The spec's error taxonomy (section 7), used to state what the caller of
sendMessage receives. -/
inductive ErrorKind where
  | credentialUnavailable
  | signalingFailure
  | channelNotReady
  | commandMalformed
deriving DecidableEq

/-- The readyState of an RTCDataChannel, as the string the DOM API exposes. -/
structure DataChannelRef where
  readyState : String
deriving DecidableEq

/-- Observable outcome of one sendMessage call: frames put on the wire,
console log tags, whether an exception escaped to the caller, whether a
reconnection was scheduled by the catch branch, and the value the caller
receives (the JS function has no return statement on any path, so the caller
always receives undefined, modelled as none). -/
structure SendEffects where
  wire : List Json
  logs : List String
  thrown : Bool
  retryScheduled : Bool
  callerResult : Option ErrorKind

/-- VoiceManager.sendMessage (lines 659-673): with an open channel the message
is stringified and sent (a send failure is caught, logged, and may schedule a
reconnect); with a missing or non-open channel nothing is sent and a
not-ready console.error is emitted.  No path throws and no path queues the
message. -/
def sendMessage (dataChannel : Option DataChannelRef) (sendThrows : Bool)
    (connectionAttempts : ℕ) (message : Json) : SendEffects :=
  match dataChannel with
  | some ch =>
    if ch.readyState = "open" then
      if sendThrows then
        { wire := [], logs := ["error_sending_message"], thrown := false,
          retryScheduled := decide (connectionAttempts < maxConnectionAttempts),
          callerResult := none }
      else
        { wire := [message], logs := [], thrown := false, retryScheduled := false,
          callerResult := none }
    else
      { wire := [], logs := ["data_channel_not_ready"], thrown := false,
        retryScheduled := false, callerResult := none }
  | none =>
    { wire := [], logs := ["data_channel_not_ready"], thrown := false,
      retryScheduled := false, callerResult := none }

/- ===================================================================
   Data-channel open sequence and session updates
   (js/core/FunctionRouter.js setupDataChannelHandlers / onDataChannelReady /
   updateSession; js/app.js startRecipeFlow / configureVoiceSession).
   =================================================================== -/

/-- The session configurations this client sends, tagged by the site that
builds them: the literal in the channel-open listener, the full recipe
configuration of configureVoiceSession(voice), and the one-field voice change
of the voice-select handler. -/
inductive SessionCfg where
  | initialDefault
  | recipeSession (voice : String)
  | voiceChangeOnly (voice : String)
deriving DecidableEq

/-- Control messages this client puts on the channel, as far as the claims
need to distinguish them. -/
inductive OutMsg where
  | sessionUpdate (cfg : SessionCfg)
  | audioAppend (pcm : List ℤ)
deriving DecidableEq

/-- The VoiceManager state the open sequence touches: the connected flag and
the queue this.dataChannelReadyCallbacks.  A callback is modelled by the list
of control messages it sends. -/
structure DCState where
  isConnected : Bool
  channelOpen : Bool
  pendingCallbacks : List (List OutMsg)

/-- The data channel open listener (lines 747-775): set this.isConnected,
start audio streaming (which sends nothing synchronously), run and clear the
queued ready-callbacks in order, then send the initial session configuration
via updateSession. -/
def dataChannelOpenFired (st : DCState) : DCState × List OutMsg :=
  ({ isConnected := true, channelOpen := true, pendingCallbacks := [] },
   st.pendingCallbacks.flatten ++ [OutMsg.sessionUpdate SessionCfg.initialDefault])

/-- VoiceManager.onDataChannelReady (lines 274-282): run the callback at once
when connected with an open channel, otherwise queue it. -/
def onDataChannelReady (st : DCState) (cb : List OutMsg) : DCState × List OutMsg :=
  if st.isConnected && st.channelOpen then (st, cb)
  else ({ st with pendingCallbacks := st.pendingCallbacks ++ [cb] }, [])

/-- RecipeVoiceApp.configureVoiceSession sends one full session.update
carrying the recipe instructions, tools and the selected voice. -/
def configureVoiceSession (voice : String) : List OutMsg :=
  [OutMsg.sessionUpdate (SessionCfg.recipeSession voice)]

def isSessionUpdate : OutMsg → Bool
  | OutMsg.sessionUpdate _ => true
  | _ => false

/-- Number of session.update messages in a trace of sent messages. -/
def countSessionUpdates (ms : List OutMsg) : ℕ :=
  (ms.filter isSessionUpdate).length

/-- The successful startRecipeFlow connection sequence in the order where the
app registers its configureVoiceSession ready-callback (right after connect()
resolves) before the channel open event fires: all control messages sent by
the time the open sequence completes. -/
def startRecipeFlowRegisterFirst : List OutMsg :=
  let st0 : DCState := { isConnected := false, channelOpen := false, pendingCallbacks := [] }
  let r1 := onDataChannelReady st0 (configureVoiceSession "sage")
  let r2 := dataChannelOpenFired r1.1
  r1.2 ++ r2.2

/-- The same sequence in the opposite interleaving (channel open fires before
the registration, so onDataChannelReady runs the callback immediately). -/
def startRecipeFlowOpenFirst : List OutMsg :=
  let st0 : DCState := { isConnected := false, channelOpen := false, pendingCallbacks := [] }
  let r1 := dataChannelOpenFired st0
  let r2 := onDataChannelReady r1.1 (configureVoiceSession "sage")
  r1.2 ++ r2.2

/- ===================================================================
   Inbound control-channel receive path (js/core/FunctionRouter.js, the
   dataChannel.onmessage handler, composed with
   RecipeVoiceApp.handleRealtimeMessage).
   =================================================================== -/

/-- View of a wire message as the delta-message shape the reassembler reads
(only the delta and call_id properties are accessed). -/
def deltaOfJson (j : Json) : DeltaMsg :=
  { call_id := (getStrField j "call_id").getD "", delta := getStrField j "delta" }

/-- View of a wire message as the done-message shape the reassembler reads. -/
def doneOfJson (j : Json) : DoneMsg :=
  { call_id := (getStrField j "call_id").getD "", name := getStrField j "name" }

/-- RecipeVoiceApp.handleRealtimeMessage (app.js lines 841-898), restricted to
what it does with the reassembler state and the dispatcher: the done case
completes the streaming call, the delta case accumulates, the
output_item.added case routes complete calls through handleFunctionCall, and
every other case only logs or touches the UI and leaves the state alone. -/
def handleRealtimeMessage (st : Option PendingFunctionCall) (j : Json) :
    ReassemblyStep :=
  let ty := (getStrField j "type").getD ""
  if ty = "response.function_call_arguments.done" then
    handleStreamingFunctionCall st (doneOfJson j)
  else if ty = "response.output_item.added" then
    let condFire : Bool :=
      (match lookupJson j "item" with
       | some it => decide (getStrField it "type" = some "function_call")
       | none => false) || jsTruthy (lookupJson j "call")
    if condFire then
      let r := handleFunctionCallJson j
      { state := st, dispatched := r.1, logs := r.2 }
    else { state := st, dispatched := [], logs := [] }
  else if ty = "response.function_call_arguments.delta" then
    { state := accumulateFunctionCallArgs st (deltaOfJson j), dispatched := [], logs := [] }
  else { state := st, dispatched := [], logs := [] }

/-- Observable outcome of delivering one raw byte string to the onmessage
handler: the reassembler state afterwards, commands dispatched, audio chunks
scheduled for playback, reconnects triggered, and console log tags. -/
structure ReceiveResult where
  state : Option PendingFunctionCall
  dispatched : List Command
  played : List String
  reconnects : ℕ
  logs : List String

/-- The dataChannel.onmessage handler (lines 777-801): JSON.parse inside
try/catch, so a malformed payload is caught and logged and nothing else
happens; a parsed message may schedule an audio chunk, may trigger a
reconnect on a connection_error, and is then handed to this.onMessageReceived
(the app's handleRealtimeMessage).  When message.type is 'error' but the
message has no error property, the access message.error.type throws a
TypeError that the same catch absorbs after the api-error log. -/
def dataChannelOnMessage (st : Option PendingFunctionCall) (raw : String) :
    ReceiveResult :=
  match jsonParse raw with
  | none =>
    { state := st, dispatched := [], played := [], reconnects := 0,
      logs := ["error_parsing_message"] }
  | some msg =>
    let ty := getStrField msg "type"
    let played :=
      if decide (ty = some "response.audio.delta") && jsTruthy (lookupJson msg "delta")
      then [(getStrField msg "delta").getD ""] else []
    if decide (ty = some "error") && (lookupJson msg "error").isNone then
      { state := st, dispatched := [], played := played, reconnects := 0,
        logs := ["api_error", "error_parsing_message"] }
    else
      let reconnects :=
        if decide (ty = some "error") &&
          (match lookupJson msg "error" with
           | some e => decide (getStrField e "type" = some "connection_error")
           | none => false) then 1 else 0
      let app := handleRealtimeMessage st msg
      { state := app.state, dispatched := app.dispatched, played := played,
        reconnects := reconnects,
        logs := (if ty = some "error" then ["api_error"] else []) ++ app.logs }

/- ===================================================================
   Helper lemmas for the reassembler.
   =================================================================== -/

theorem jsTruthyStr_isEmpty_false {o : Option String} {s : String}
    (h : jsTruthyStr o = some s) : s.isEmpty = false := by
  cases o with
  | none => exact Option.noConfusion h
  | some t =>
    rw [show jsTruthyStr (some t) = if t.isEmpty then none else some t from rfl] at h
    by_cases ht : t.isEmpty
    · rw [if_pos ht] at h
      exact Option.noConfusion h
    · rw [if_neg ht] at h
      injection h with h2
      subst h2
      simp only [Bool.not_eq_true] at ht
      exact ht

theorem functionNameOf_isEmpty_false (m : DoneMsg) (p : PendingFunctionCall) :
    (functionNameOf m p).isEmpty = false := by
  unfold functionNameOf
  cases hm : jsTruthyStr m.name with
  | some s =>
    simp only [Option.some_orElse', Option.getD_some]
    exact jsTruthyStr_isEmpty_false hm
  | none =>
    cases hp : jsTruthyStr p.name with
    | some s =>
      simp only [Option.none_orElse', hp, Option.getD_some]
      exact jsTruthyStr_isEmpty_false hp
    | none =>
      simp only [Option.none_orElse', hp, Option.getD_none]
      decide

theorem handleFunctionCallJson_fcEvent (nm : String) (args : Json)
    (h : nm.isEmpty = false) :
    handleFunctionCallJson (Json.obj [("type", Json.str "function_call"),
      ("name", Json.str nm), ("arguments", args)]) =
      ([{ name := nm, arguments := args }], []) := by
  simp [handleFunctionCallJson, lookupJson, getStrField, jsTruthy, h]

theorem handleStreamingFunctionCall_parses (p : PendingFunctionCall) (m : DoneMsg)
    (args : Json) (hparse : jsonParse p.arguments = some args) :
    handleStreamingFunctionCall (some p) m =
      { state := none,
        dispatched := [{ name := functionNameOf m p, arguments := args }],
        logs := ["completing_streaming_function_call"] } := by
  have h : (((jsTruthyStr m.name).orElse fun _ => jsTruthyStr p.name).getD
      "addIngredient").isEmpty = false := functionNameOf_isEmpty_false m p
  simp only [handleStreamingFunctionCall, hparse]
  rw [handleFunctionCallJson_fcEvent _ _ h]
  simp [functionNameOf]

theorem accumulate_step (st : Option PendingFunctionCall) (m : DeltaMsg) :
    accumulateFunctionCallArgs st m =
      some { name := (st.getD { name := none, arguments := "" }).name,
             arguments := (st.getD { name := none, arguments := "" }).arguments ++
               m.delta.getD "" } := by
  cases hd : m.delta with
  | none => simp [accumulateFunctionCallArgs, hd]
  | some d =>
    by_cases he : d.isEmpty
    · have : d = "" := (String.isEmpty_iff d).mp he
      subst this
      simp [accumulateFunctionCallArgs, hd, he]
    · simp [accumulateFunctionCallArgs, hd, he]

theorem foldAccum_some (ms : List DeltaMsg) (p : PendingFunctionCall) :
    ms.foldl accumulateFunctionCallArgs (some p) =
      some { name := p.name, arguments := p.arguments ++ concatDeltas ms } := by
  induction ms generalizing p with
  | nil => simp [concatDeltas]
  | cons m ms ih =>
    rw [List.foldl_cons, accumulate_step]
    simp only [Option.getD_some]
    rw [ih]
    simp [concatDeltas, String.append_assoc]

theorem foldAccum_none (ms : List DeltaMsg) (h : ms ≠ []) :
    ms.foldl accumulateFunctionCallArgs none =
      some { name := none, arguments := concatDeltas ms } := by
  cases ms with
  | nil => exact absurd rfl h
  | cons m ms =>
    rw [List.foldl_cons, accumulate_step]
    simp only [Option.getD_none]
    rw [foldAccum_some]
    simp [concatDeltas]

theorem processFC_deltas (frags : List DeltaMsg) (r : ReassemblyStep) :
    (frags.map FCEvent.delta).foldl stepFCEvent r =
      { r with state := frags.foldl accumulateFunctionCallArgs r.state } := by
  induction frags generalizing r with
  | nil => simp
  | cons m ms ih =>
    rw [List.map_cons, List.foldl_cons]
    rw [ih]
    rfl

/- ===================================================================
   Claim theorems: streaming command reassembler.
   =================================================================== -/

/-- Claim C1: for a sequence of argument fragments delivered in arrival order
for one in-flight call and followed by a functionCallDone event, the
reassembler concatenates the fragments in that order, parses the
concatenation as JSON, dispatches exactly one command carrying the parsed
arguments, and clears the pending accumulator. -/
theorem reassembler_dispatches_exactly_once
    (cid : String) (frags : List DeltaMsg) (dm : DoneMsg) (args : Json)
    (hcid : ∀ f ∈ frags, f.call_id = cid)
    (hne : frags ≠ [])
    (hparse : jsonParse (concatDeltas frags) = some args) :
    processFCEvents (frags.map FCEvent.delta ++ [FCEvent.done dm]) =
      { state := none,
        dispatched :=
          [⟨functionNameOf dm ⟨none, concatDeltas frags⟩, args⟩],
        logs := ["completing_streaming_function_call"] } := by
  unfold processFCEvents
  rw [List.foldl_append, processFC_deltas, foldAccum_none _ hne]
  simp only [List.foldl_cons, List.foldl_nil, stepFCEvent]
  rw [handleStreamingFunctionCall_parses _ _ _ hparse]
  simp

/-- Claim C1 witness: the fragments of the spec's example followed by done
yield exactly one dispatched command, addIngredient with
arguments containing name eggs and amount 3, and the accumulator is cleared. -/
theorem reassembler_dispatches_exactly_once_witness :
    processFCEvents [
      FCEvent.delta { call_id := "call_1", delta := some "\x7b\"name\":\"eg" },
      FCEvent.delta { call_id := "call_1", delta := some "gs\",\"amount" },
      FCEvent.delta { call_id := "call_1", delta := some "\":3\x7d" },
      FCEvent.done { call_id := "call_1", name := some "addIngredient" }] =
      { state := none,
        dispatched :=
          [⟨"addIngredient", Json.obj [("name", Json.str "eggs"), ("amount", Json.num 3)]⟩],
        logs := ["completing_streaming_function_call"] } := by
  have h := reassembler_dispatches_exactly_once "call_1"
    [{ call_id := "call_1", delta := some "\x7b\"name\":\"eg" },
     { call_id := "call_1", delta := some "gs\",\"amount" },
     { call_id := "call_1", delta := some "\":3\x7d" }]
    ({ call_id := "call_1", name := some "addIngredient" })
    (Json.obj [("name", Json.str "eggs"), ("amount", Json.num 3)])
    (by decide) (by decide) (by rfl)
  simpa using h

/-- Claim C3 counterexample: the accumulator is not keyed by call identifier;
two deltas carrying distinct call ids are appended into one shared buffer
rather than accumulating into distinct pending entries. -/
theorem distinct_call_ids_merged :
    ("call_1" : String) ≠ "call_2" ∧
    accumulateFunctionCallArgs (accumulateFunctionCallArgs none
        { call_id := "call_1", delta := some "\x7b\"name\":\"eg" })
        { call_id := "call_2", delta := some "gs\"\x7d" } =
      some { name := none, arguments := "\x7b\"name\":\"eggs\"\x7d" } := by
  exact ⟨by decide, rfl⟩

/-- Claim C3 (amended): the pending accumulator is one global entry rather
than a per-call-id table: it is created on the first delta, fragments are
appended in arrival order, at most one pending call exists in total, and the
call ids carried by the deltas are ignored, so fragments of distinct call ids
merge into the single shared buffer. -/
theorem single_global_accumulator
    (p : PendingFunctionCall) (ms : List DeltaMsg) (rename : String → String) :
    (ms.foldl accumulateFunctionCallArgs (some p) =
      some { name := p.name, arguments := p.arguments ++ concatDeltas ms })
    ∧ (ms ≠ [] → ms.foldl accumulateFunctionCallArgs none =
        some { name := none, arguments := concatDeltas ms })
    ∧ ((ms.map (fun m => { m with call_id := rename m.call_id })).foldl
        accumulateFunctionCallArgs (some p) =
        ms.foldl accumulateFunctionCallArgs (some p)) := by
  refine ⟨foldAccum_some ms p, fun h => foldAccum_none ms h, ?_⟩
  rw [foldAccum_some, foldAccum_some]
  have hconcat : ∀ l : List DeltaMsg,
      concatDeltas (l.map (fun m => { m with call_id := rename m.call_id })) =
        concatDeltas l := by
    intro l
    induction l with
    | nil => rfl
    | cons m l ih => simp [concatDeltas, ih]
  rw [hconcat]

/-- Claim C3 amended witness: a concrete two-fragment accumulation from the
empty state, with an id-renaming applied, yields the same single merged
entry. -/
theorem single_global_accumulator_witness :
    [DeltaMsg.mk "a" (some "x"), DeltaMsg.mk "b" (some "y")].foldl
        accumulateFunctionCallArgs none =
      some { name := none, arguments := "xy" } :=
  (single_global_accumulator { name := none, arguments := "" }
    [DeltaMsg.mk "a" (some "x"), DeltaMsg.mk "b" (some "y")] id).2.1 (by decide)

/-- Claim C9: a functionCallDone event arriving when no pending function call
exists dispatches nothing, leaves the reassembler state unchanged, and only
logs the event as unexpected. -/
theorem done_without_pending_is_noop (m : DoneMsg) :
    handleStreamingFunctionCall none m =
      { state := none, dispatched := [],
        logs := ["no_streaming_call_to_complete"] } := rfl

/-- Claim C10: a completed streaming call whose done message carries no
function name, and for which no name was recorded from the deltas, is not
discarded: the parsed arguments are dispatched under the default name
addIngredient. -/
theorem missing_name_defaults_to_addIngredient
    (p : PendingFunctionCall) (m : DoneMsg) (args : Json)
    (hm : m.name = none) (hp : p.name = none)
    (hparse : jsonParse p.arguments = some args) :
    handleStreamingFunctionCall (some p) m =
      { state := none,
        dispatched := [⟨"addIngredient", args⟩],
        logs := ["completing_streaming_function_call"] } := by
  rw [handleStreamingFunctionCall_parses _ _ _ hparse]
  simp [functionNameOf, hm, hp, jsTruthyStr, Option.none_orElse']

/-- Claim C10 witness: a concrete done message with no name and an accumulator
that recorded no name dispatches under addIngredient. -/
theorem missing_name_defaults_to_addIngredient_witness :
    handleStreamingFunctionCall
        (some { name := none, arguments := "\x7b\"name\":\"eggs\",\"amount\":3\x7d" })
        ({ call_id := "call_9", name := none }) =
      { state := none,
        dispatched :=
          [⟨"addIngredient", Json.obj [("name", Json.str "eggs"), ("amount", Json.num 3)]⟩],
        logs := ["completing_streaming_function_call"] } :=
  missing_name_defaults_to_addIngredient
    ({ name := none, arguments := "\x7b\"name\":\"eggs\",\"amount\":3\x7d" })
    ({ call_id := "call_9", name := none })
    (Json.obj [("name", Json.str "eggs"), ("amount", Json.num 3)])
    rfl rfl rfl

/- ===================================================================
   Claim theorems: audio silence gate.
   =================================================================== -/

theorem foldl_energy_nonneg (f : List ℚ) :
    ∀ a : ℚ, 0 ≤ a → 0 ≤ f.foldl (fun acc x => acc + |x| * |x|) a := by
  induction f with
  | nil => intro a ha; simpa using ha
  | cons x xs ih =>
    intro a ha
    rw [List.foldl_cons]
    exact ih _ (add_nonneg ha (mul_nonneg (abs_nonneg x) (abs_nonneg x)))

theorem audioEnergy_nonneg (f : List ℚ) : 0 ≤ audioEnergy f :=
  foldl_energy_nonneg f 0 le_rfl

theorem hasSignificant_iff_sqrt (f : List ℚ) :
    hasSignificantAudioFrame f = true ↔
      ((15 / 1000 : ℝ) < Real.sqrt (((audioEnergy f : ℚ) : ℝ) / (f.length : ℝ)) ∧
       (8 / 1000 : ℝ) < ((maxAmplitude f : ℚ) : ℝ)) := by
  unfold hasSignificantAudioFrame
  rw [Bool.and_eq_true, decide_eq_true_eq, decide_eq_true_eq, gt_iff_lt, gt_iff_lt]
  rw [Real.lt_sqrt (by norm_num)]
  constructor
  · rintro ⟨h1, h2⟩
    constructor
    · have hc := (Rat.cast_lt (K := ℝ)).mpr h1
      push_cast at hc
      exact hc
    · have hc := (Rat.cast_lt (K := ℝ)).mpr h2
      push_cast at hc
      exact hc
  · rintro ⟨h1, h2⟩
    constructor
    · refine (Rat.cast_lt (K := ℝ)).mp ?_
      push_cast
      exact h1
    · refine (Rat.cast_lt (K := ℝ)).mp ?_
      push_cast
      exact h2

theorem onAudioProcess_significant (c : ℕ) (f : List ℚ)
    (h : hasSignificantAudioFrame f = true) :
    onAudioProcess true false true c f = (0, some (pcmEncode f)) := by
  simp [onAudioProcess, h]

theorem onAudioProcess_silent (c : ℕ) (f : List ℚ)
    (h : hasSignificantAudioFrame f = false) :
    onAudioProcess true false true c f =
      (c + 1, if maxSilentFrames < c + 1 then none else some (pcmEncode f)) := by
  unfold onAudioProcess
  rw [if_neg (by decide)]
  rw [if_pos (by simp [h])]
  show (if c + 1 > maxSilentFrames then (c + 1, none)
    else (c + 1, some (pcmEncode f))) = _
  by_cases hc : maxSilentFrames < c + 1
  · rw [if_pos hc, if_pos hc]
  · rw [if_neg hc, if_neg hc]

theorem audioOutputs_silentRun (tail : List (List ℚ))
    (h : ∀ f ∈ tail, hasSignificantAudioFrame f = false) :
    ∀ (c i : ℕ), i < tail.length →
      (audioOutputs c tail)[i]? =
        some (if c + i + 1 ≤ maxSilentFrames then tail[i]?.map pcmEncode else none) := by
  induction tail with
  | nil => intro c i hi; exact absurd hi (by simp)
  | cons f fs ih =>
    intro c i hi
    have hf : hasSignificantAudioFrame f = false := h f (List.mem_cons_self f fs)
    have hrun : audioOutputs c (f :: fs) =
        (onAudioProcess true false true c f).2 ::
          audioOutputs (onAudioProcess true false true c f).1 fs := rfl
    rw [hrun, onAudioProcess_silent c f hf]
    cases i with
    | zero =>
      simp only [List.getElem?_cons_zero, Option.map_some', Option.some_inj]
      by_cases hc : maxSilentFrames < c + 1
      · rw [if_pos hc, if_neg (by omega : ¬ c + 0 + 1 ≤ maxSilentFrames)]
      · rw [if_neg hc, if_pos (by omega : c + 0 + 1 ≤ maxSilentFrames)]
    | succ j =>
      simp only [List.getElem?_cons_succ]
      rw [ih (fun g hg => h g (List.mem_cons_of_mem _ hg)) (c + 1) j (by simpa using hi)]
      have harith : c + 1 + j + 1 = c + (j + 1) + 1 := by omega
      simp only [harith]

/-- Claim C2: a frame is significant iff its RMS energy exceeds 0.015 and its
peak absolute amplitude exceeds 0.008 (stated over the reals with the square
root the source computes); a significant frame resets the consecutive-silence
counter to zero and is encoded and sent; and after a significant frame the
first ten consecutive non-significant frames are still encoded and sent as
audio-append payloads while the eleventh and all further consecutive
non-significant frames are suppressed. -/
theorem silence_gate :
    (∀ f : List ℚ, hasSignificantAudioFrame f = true ↔
      ((15 / 1000 : ℝ) < Real.sqrt (((audioEnergy f : ℚ) : ℝ) / (f.length : ℝ)) ∧
       (8 / 1000 : ℝ) < ((maxAmplitude f : ℚ) : ℝ)))
  ∧ (∀ (c : ℕ) (f : List ℚ), hasSignificantAudioFrame f = true →
      onAudioProcess true false true c f = (0, some (pcmEncode f)))
  ∧ (∀ (c : ℕ) (sig : List ℚ) (tail : List (List ℚ)),
      hasSignificantAudioFrame sig = true →
      (∀ f ∈ tail, hasSignificantAudioFrame f = false) →
      (audioOutputs c (sig :: tail))[0]? = some (some (pcmEncode sig)) ∧
      ∀ i : ℕ, i < tail.length →
        (audioOutputs c (sig :: tail))[i + 1]? =
          some (if i < maxSilentFrames then tail[i]?.map pcmEncode else none)) := by
  refine ⟨hasSignificant_iff_sqrt, onAudioProcess_significant, ?_⟩
  intro c sig tail hsig htail
  have hrun : audioOutputs c (sig :: tail) =
      (onAudioProcess true false true c sig).2 ::
        audioOutputs (onAudioProcess true false true c sig).1 tail := rfl
  rw [hrun, onAudioProcess_significant c sig hsig]
  constructor
  · simp
  · intro i hi
    simp only [List.getElem?_cons_succ]
    rw [audioOutputs_silentRun tail htail 0 i hi]
    simp only [Nat.zero_add, Nat.lt_iff_add_one_le]

/-- Claim C2 witness: from any counter value, a significant frame followed by
twelve silent frames has its fourth silent frame still sent and its eleventh
silent frame suppressed. -/
theorem silence_gate_witness :
    (audioOutputs 5 ([1] :: List.replicate 12 [0]))[4]? =
      some (some (pcmEncode [0]))
  ∧ (audioOutputs 5 ([1] :: List.replicate 12 [0]))[11]? = some none := by
  have hsig : hasSignificantAudioFrame [1] = true := by
    have h1 : (decide (audioEnergy [1] / (([1] : List ℚ).length : ℚ) >
        (15 / 1000 : ℚ) ^ 2)) = true := by
      rw [decide_eq_true_eq]
      norm_num [audioEnergy]
    have h2 : (decide (maxAmplitude ([1] : List ℚ) > 8 / 1000)) = true := by
      rw [decide_eq_true_eq]
      norm_num [maxAmplitude]
    unfold hasSignificantAudioFrame
    rw [h1, h2]
    rfl
  have htail : ∀ f ∈ List.replicate 12 ([0] : List ℚ),
      hasSignificantAudioFrame f = false := by
    intro f hf
    have hf0 : f = [0] := List.eq_of_mem_replicate hf
    subst hf0
    have h1 : (decide (audioEnergy [0] / (([0] : List ℚ).length : ℚ) >
        (15 / 1000 : ℚ) ^ 2)) = false := by
      rw [decide_eq_false_iff_not]
      norm_num [audioEnergy]
    unfold hasSignificantAudioFrame
    rw [h1, Bool.false_and]
  have h3 := silence_gate.2.2 5 [1] (List.replicate 12 [0]) hsig htail
  constructor
  · have h4 := h3.2 3 (by simp)
    simpa using h4
  · have h5 := h3.2 10 (by simp)
    simpa [maxSilentFrames] using h5

/- ===================================================================
   Claim theorems: connection retry, backoff, send, open sequence,
   receive path.
   =================================================================== -/

/-- Claim C4 (code evaluated on the failing scenario): starting from a fresh
VoiceManager, after a failing connect() and any number of failing scheduled
reconnects - that is, after arbitrarily many consecutive failed connection
attempts - the attempt counter is back at 1 (reconnect() runs disconnect(),
which zeroes it, before the next connect() increments it), a further
reconnection is always scheduled, and the give-up error has never been
surfaced.  The machine therefore never reaches the terminal failed state
through its own retry loop, contrary to the claim. -/
theorem reconnect_loop_never_reaches_failed (n : ℕ) :
    failedReconnect^[n] (failedConnect initialVM) =
      { connectionAttempts := 1, reconnectScheduled := true, fatalErrors := 0 } := by
  induction n with
  | zero => rfl
  | succ n ih =>
    rw [Function.iterate_succ_apply', ih]
    rfl

/-- Claim C5: for every attempt number below the retry bound and every jitter
value in [0, 1000), the APIClient retry delay equals
min(1000 * 2 ^ n + jitter, 10000) and lies between 1000 * 2 ^ n and
min(1000 * 2 ^ n + 1000, 10000); the VoiceManager reconnect backoff likewise
equals min(2000 * 2 ^ n + jitter, 30000) for some jitter in [0, 1000] (namely
zero - it adds no jitter) and lies between the corresponding bounds. -/
theorem backoff_delay_bounds (n : ℕ) (j : ℚ)
    (hn : n < maxRetries) (h0 : 0 ≤ j) (h1 : j < 1000) :
    (calculateRetryDelay n j = min (1000 * 2 ^ n + j) 10000
     ∧ 1000 * 2 ^ n ≤ calculateRetryDelay n j
     ∧ calculateRetryDelay n j ≤ min (1000 * 2 ^ n + 1000) 10000)
  ∧ (∃ jit : ℚ, 0 ≤ jit ∧ jit ≤ 1000 ∧
       reconnectBackoffDelay n = min (2000 * 2 ^ n + jit) 30000
     ∧ 2000 * 2 ^ n ≤ reconnectBackoffDelay n
     ∧ reconnectBackoffDelay n ≤ min (2000 * 2 ^ n + 1000) 30000) := by
  have hn3 : n < 3 := hn
  have hpow : (2 : ℚ) ^ n ≤ 4 := by
    interval_cases n <;> norm_num
  constructor
  · refine ⟨rfl, ?_, ?_⟩
    · unfold calculateRetryDelay
      have : (1000 : ℚ) * 2 ^ n + j ≤ 10000 := by nlinarith
      rw [min_eq_left this]
      linarith
    · unfold calculateRetryDelay
      apply min_le_min _ le_rfl
      linarith
  · refine ⟨0, le_rfl, by norm_num, by rw [add_zero]; rfl, ?_, ?_⟩
    · unfold reconnectBackoffDelay
      have : (2000 : ℚ) * 2 ^ n ≤ 30000 := by nlinarith
      rw [min_eq_left this]
    · unfold reconnectBackoffDelay
      apply min_le_min _ (by norm_num)
      linarith

/-- Claim C5 witness: attempt 1 with jitter 500 satisfies the bounds. -/
theorem backoff_delay_bounds_witness :
    1000 * 2 ^ 1 ≤ calculateRetryDelay 1 500
  ∧ calculateRetryDelay 1 500 ≤ min (1000 * 2 ^ 1 + 1000) 10000
  ∧ 2000 * 2 ^ 1 ≤ reconnectBackoffDelay 1 := by
  have h := backoff_delay_bounds 1 500 (by norm_num [maxRetries]) (by norm_num) (by norm_num)
  obtain ⟨⟨_, h2, h3⟩, ⟨jit, _, _, _, h5, _⟩⟩ := h
  exact ⟨h2, h3, h5⟩

/-- Claim C6 counterexample: sending on a closed channel produces no wire
traffic and does not throw, but the caller receives nothing at all (the JS
function returns undefined on every path) - in particular not a
ChannelNotReady error value; the condition is only reported to the console. -/
theorem send_closed_channel_reports_nothing_to_caller :
    (sendMessage (some { readyState := "closed" }) false 0 (Json.obj [])).wire = []
  ∧ (sendMessage (some { readyState := "closed" }) false 0 (Json.obj [])).thrown = false
  ∧ (sendMessage (some { readyState := "closed" }) false 0 (Json.obj [])).callerResult = none
  ∧ (none : Option ErrorKind) ≠ some ErrorKind.channelNotReady := by
  refine ⟨rfl, rfl, rfl, by simp⟩

/-- Claim C6 (amended): for every control message and every state in which the
reliable channel is missing or not open, send produces no wire traffic, does
not throw, neither queues nor schedules any retry of the message, logs a
channel-not-ready diagnostic, and returns nothing to the caller. -/
theorem send_not_open_is_logged_noop
    (dc : Option DataChannelRef) (sendThrows : Bool) (ca : ℕ) (m : Json)
    (h : ∀ ch, dc = some ch → ch.readyState ≠ "open") :
    sendMessage dc sendThrows ca m =
      { wire := [], logs := ["data_channel_not_ready"], thrown := false,
        retryScheduled := false, callerResult := none } := by
  cases dc with
  | none => rfl
  | some ch =>
    simp only [sendMessage]
    rw [if_neg (h ch rfl)]

/-- Claim C6 amended witness: a concrete send on a connecting channel. -/
theorem send_not_open_is_logged_noop_witness :
    sendMessage (some { readyState := "connecting" }) false 2 Json.null =
      { wire := [], logs := ["data_channel_not_ready"], thrown := false,
        retryScheduled := false, callerResult := none } :=
  send_not_open_is_logged_noop _ _ _ _
    (by
      intro ch hch
      injection hch with h2
      rw [← h2]
      decide)

/-- Claim C7 counterexample: in the repository's startRecipeFlow connection
sequence the app registers a data-channel-ready callback
(configureVoiceSession) that itself sends a session.update; once the channel
open sequence completes, exactly two session.update messages have been sent -
in either interleaving of registration and channel open - not exactly one. -/
theorem recipe_flow_sends_two_session_updates :
    countSessionUpdates startRecipeFlowRegisterFirst = 2
  ∧ countSessionUpdates startRecipeFlowOpenFirst = 2 := by
  exact ⟨rfl, rfl⟩

/-- A VoiceManager connection state before the channel opens, with the given
ready-callbacks queued. -/
def freshDC (cbs : List (List OutMsg)) : DCState :=
  { isConnected := false, channelOpen := false, pendingCallbacks := cbs }

/-- Claim C7 (amended): the channel-open handler itself sends exactly one
session.update after running the queued ready-callbacks; with no callbacks
registered exactly one session.update has been sent once the Transport is
connected, and in general one more than the callbacks themselves send. -/
theorem open_sequence_session_update_count (cbs : List (List OutMsg)) :
    (dataChannelOpenFired (freshDC cbs)).2
      = cbs.flatten ++ [OutMsg.sessionUpdate SessionCfg.initialDefault]
  ∧ countSessionUpdates (dataChannelOpenFired (freshDC cbs)).2
      = countSessionUpdates cbs.flatten + 1
  ∧ (dataChannelOpenFired (freshDC cbs)).1.isConnected = true
  ∧ countSessionUpdates (dataChannelOpenFired (freshDC [])).2 = 1 := by
  refine ⟨rfl, ?_, rfl, rfl⟩
  unfold dataChannelOpenFired countSessionUpdates freshDC
  rw [List.filter_append, List.length_append]
  rfl

/-- Claim C8: an inbound payload that is not valid JSON never escapes the
receive handler as an exception: it is logged and skipped, the reassembler
state is unchanged, nothing is dispatched, played or reconnected, and any
subsequent message is processed exactly as it would have been without the
malformed one. -/
theorem malformed_message_skipped (st : Option PendingFunctionCall) (raw : String)
    (h : jsonParse raw = none) :
    dataChannelOnMessage st raw =
      { state := st, dispatched := [], played := [], reconnects := 0,
        logs := ["error_parsing_message"] }
  ∧ ∀ nxt : String, dataChannelOnMessage (dataChannelOnMessage st raw).state nxt
      = dataChannelOnMessage st nxt := by
  have h1 : dataChannelOnMessage st raw =
      { state := st, dispatched := [], played := [], reconnects := 0,
        logs := ["error_parsing_message"] } := by
    unfold dataChannelOnMessage
    rw [h]
  exact ⟨h1, fun nxt => by rw [h1]⟩

/-- Claim C8 witness: a concrete truncated payload is logged and skipped and
a subsequent message is processed identically. -/
theorem malformed_message_skipped_witness :
    dataChannelOnMessage none "\x7b\"name\":\"eg" =
      { state := none, dispatched := [], played := [], reconnects := 0,
        logs := ["error_parsing_message"] } :=
  (malformed_message_skipped none "\x7b\"name\":\"eg" rfl).1
